import Mathlib

/-!
Verification of the cattle-tree component
(`side_projects/cattle-tree-app/src/app/cattle-tree/cattle-tree.ts` and the
`CowDialogComponent`): a shallow embedding of the `Cow` data model, the
`d3.hierarchy` / `d3.tree` layout pipeline as invoked by `createTree`, the
d3-drag gesture handlers, the dialog rendering, and the module-level
`localStorage` side effect, together with theorems about them.

Conventions: the JS numbers used by the layout are embedded as exact
rationals (`Frac`, normalised `Int` fractions — the layout arithmetic is
additions, subtractions, multiplications and divisions of values derived
from small integers, so exact rationals realise the algorithm's real-number
semantics). Timestamps (`Date.now()`) are embedded as `Int` (milliseconds).
JS `undefined`-able record fields are `Option`s.
-/

/-- Exact rational numbers for layout coordinates: a normalised fraction
`num / den` with `den > 0` (kept executable so concrete layouts evaluate
inside the kernel). -/
structure Frac where
  num : Int
  den : Int
deriving DecidableEq, Repr

/-- Normalise a fraction: make the denominator positive and divide out the
gcd (total; a zero denominator — never produced in this development — is
left as is). -/
def Frac.norm (a : Frac) : Frac :=
  let sg : Int := if a.den < 0 then -1 else 1
  let n := sg * a.num
  let d := sg * a.den
  let g : Nat := n.natAbs.gcd d.natAbs
  if g = 0 then ⟨n, d⟩ else ⟨n / (g : Int), d / (g : Int)⟩

instance : OfNat Frac k := ⟨⟨(k : Int), 1⟩⟩

instance : Add Frac := ⟨fun a b => Frac.norm ⟨a.num * b.den + b.num * a.den, a.den * b.den⟩⟩

instance : Sub Frac := ⟨fun a b => Frac.norm ⟨a.num * b.den - b.num * a.den, a.den * b.den⟩⟩

instance : Neg Frac := ⟨fun a => ⟨-a.num, a.den⟩⟩

instance : Mul Frac := ⟨fun a b => Frac.norm ⟨a.num * b.num, a.den * b.den⟩⟩

instance : Div Frac := ⟨fun a b => Frac.norm ⟨a.num * b.den, a.den * b.num⟩⟩

instance : LT Frac := ⟨fun a b => a.num * b.den < b.num * a.den⟩

instance (a b : Frac) : Decidable (a < b) := inferInstanceAs (Decidable (_ < _))

/-- Cast a `Nat` (sibling index, depth) into a `Frac`. -/
def Frac.ofNat (k : Nat) : Frac := ⟨(k : Int), 1⟩

/-- The `gender` field of the `Cow` interface: `'male' | 'female'`. -/
inductive Gender where
  | male
  | female
deriving DecidableEq, Repr

/-- The `Cow` interface of `cattle-tree.ts`:
`{ name: string; age?: number; gender?: 'male' | 'female'; notes?: string; children?: Cow[] }`.
Optional fields are `Option`s (`none` = the property is absent). -/
inductive Cow : Type where
  | mk (name : String) (age : Option Nat) (gender : Option Gender)
       (notes : Option String) (children : Option (List Cow)) : Cow

/-- The `name` property of a `Cow`. -/
def Cow.name : Cow → String
  | .mk n _ _ _ _ => n

/-- The `age` property of a `Cow`. -/
def Cow.age : Cow → Option Nat
  | .mk _ a _ _ _ => a

/-- The `gender` property of a `Cow`. -/
def Cow.gender : Cow → Option Gender
  | .mk _ _ g _ _ => g

/-- The `notes` property of a `Cow`. -/
def Cow.notes : Cow → Option String
  | .mk _ _ _ no _ => no

/-- The `children` property of a `Cow`. -/
def Cow.children : Cow → Option (List Cow)
  | .mk _ _ _ _ ch => ch

mutual

/-- Number of nodes of a cow tree (the length of `root.descendants()` that
`d3.hierarchy` produces for it: the node itself plus all transitive children;
an absent `children` property is a leaf, exactly as in `d3.hierarchy`). -/
def countNodes : Cow → Nat
  | .mk _ _ _ _ none => 1
  | .mk _ _ _ _ (some l) => 1 + countNodesL l

/-- Total node count of a list of sibling subtrees. -/
def countNodesL : List Cow → Nat
  | [] => 0
  | c :: cs => countNodes c + countNodesL cs

end

/-- The module-level sample record `{ name: 'Lilly', age: 11, gender: 'female' }`
that `cattle-tree.ts` puts in its module-level `cows` list. -/
def cowsLilly : Cow := .mk "Lilly" (some 11) (some .female) none none

/-- The module-level list `let cows: Cow[] = [ { name: 'Lilly', age: 11, gender: 'female' } ]`. -/
def cows : List Cow := [cowsLilly]

/-- The hard-coded tree `private data: Cow = { name: 'Lilly', children: [...] }`
that the component renders. -/
def cattleTreeData : Cow :=
  .mk "Lilly" none none none (some
    [ .mk "Bella" none none none none
    , .mk "Daisy" none none none (some
        [ .mk "MooMoo" none none none none
        , .mk "Bessie" none none none none ])
    , .mk "Buttercup" none none none none ])

/-! ## The `d3.tree` layout (`d3-hierarchy`'s `tree.js`), as called by `createTree`

`createTree` runs `d3.tree<Cow>().size([width - 100, height - 100])` on
`d3.hierarchy(data)` with `width = 800`, `height = 600`.  We embed the
library's algorithm (Buchheim et al.'s tidy-tree walk followed by the
`size`-normalisation pass) over an arena of node ids: the nodes of the tree
are numbered in preorder `0, 1, 2, ...` (the root is `0`), and — exactly as
`treeRoot` in `tree.js` does — a fake parent node (id `n`, where `n` is the
node count) is placed above the root, whose `children` list is `[0]`.
The per-node mutable fields `z, m, c, s, t, a, A` of d3's `TreeNode` are
embedded as functions `Nat → _` updated by `fupd`. -/

/-- Static (structure-only) data of the wrapped tree: parent, children,
sibling index `i`, and depth, per node id. -/
structure Arena where
  n : Nat
  parent : Nat → Nat
  children : Nat → List Nat
  sibIdx : Nat → Nat
  depth : Nat → Nat

/-- Pointwise function update, used for the per-node mutable fields. -/
def fupd {α : Type} (f : Nat → α) (i : Nat) (v : α) : Nat → α :=
  fun j => if j = i then v else f j

/-- Static description of one node: its id, parent id, sibling index,
depth, child ids, and source datum. -/
structure NodeInfo where
  id : Nat
  parent : Nat
  sibIdx : Nat
  depth : Nat
  childIds : List Nat
  data : Cow

/-- Ids assigned to a list of sibling subtrees laid out consecutively in
preorder starting at `start`: each subtree occupies a block of
`countNodes` consecutive ids. -/
def childIdsFrom : List Cow → Nat → List Nat
  | [], _ => []
  | k :: rest, start => start :: childIdsFrom rest (start + countNodes k)

mutual

/-- Preorder enumeration of `NodeInfo`s for the subtree rooted at a cow,
which is assigned id `self`, has parent id `par`, sibling index `sib` and
depth `dep`. -/
def infosOf : Cow → Nat → Nat → Nat → Nat → List NodeInfo
  | .mk n a g no none, self, par, sib, dep =>
      [⟨self, par, sib, dep, [], .mk n a g no none⟩]
  | .mk n a g no (some l), self, par, sib, dep =>
      ⟨self, par, sib, dep, childIdsFrom l (self + 1), .mk n a g no (some l)⟩
        :: infosKids l (self + 1) self 0 (dep + 1)

/-- Version of `infosOf` over a list of sibling subtrees starting at id `start`. -/
def infosKids : List Cow → Nat → Nat → Nat → Nat → List NodeInfo
  | [], _, _, _, _ => []
  | k :: rest, start, par, sib, dep =>
      infosOf k start par sib dep ++ infosKids rest (start + countNodes k) par (sib + 1) dep

end

mutual

/-- Postorder node ids of the subtree with root id `self` (children
left-to-right, then the node) — the order of d3's `eachAfter`, used for
`firstWalk`. -/
def postIds : Cow → Nat → List Nat
  | .mk _ _ _ _ none, self => [self]
  | .mk _ _ _ _ (some l), self => postIdsKids l (self + 1) ++ [self]

/-- Version of `postIds` over a list of sibling subtrees starting at id `start`. -/
def postIdsKids : List Cow → Nat → List Nat
  | [], _ => []
  | k :: rest, start => postIds k start ++ postIdsKids rest (start + countNodes k)

end

mutual

/-- Preorder node ids of the subtree with root id `self` — the order of
d3's `eachBefore`, used for `secondWalk` and the size normalisation. -/
def preIds : Cow → Nat → List Nat
  | .mk _ _ _ _ none, self => [self]
  | .mk _ _ _ _ (some l), self => self :: preIdsKids l (self + 1)

/-- Version of `preIds` over a list of sibling subtrees starting at id `start`. -/
def preIdsKids : List Cow → Nat → List Nat
  | [], _ => []
  | k :: rest, start => preIds k start ++ preIdsKids rest (start + countNodes k)

end

/-- The arena of a cow tree: preorder ids, with the fake parent node
(`treeRoot`'s `tree.parent`) at id `n` whose only child is the root.
Lookups outside the tree default to the fake node's values. -/
def arenaOf (c : Cow) : Arena :=
  let n := countNodes c
  let infos := infosOf c 0 n 0 0
  { n := n
  , parent := fun v => (((infos.find? (fun info => info.id == v)).map (·.parent)).getD n)
  , children := fun v =>
      if v = n then [0]
      else (((infos.find? (fun info => info.id == v)).map (·.childIds)).getD [])
  , sibIdx := fun v => (((infos.find? (fun info => info.id == v)).map (·.sibIdx)).getD 0)
  , depth := fun v => (((infos.find? (fun info => info.id == v)).map (·.depth)).getD 0) }

/-- The mutable per-node fields of d3's `TreeNode`:
`z` (prelim x), `m` (mod), `c` (change), `s` (shift), `t` (thread),
`a` (ancestor), `A` (default ancestor). -/
structure WS where
  z : Nat → Frac
  m : Nat → Frac
  c : Nat → Frac
  s : Nat → Frac
  t : Nat → Option Nat
  a : Nat → Nat
  A : Nat → Option Nat

/-- Initial `TreeNode` state: all numeric fields `0`, no thread, each node
its own ancestor, no default ancestor. -/
def ws0 : WS :=
  { z := fun _ => 0, m := fun _ => 0, c := fun _ => 0, s := fun _ => 0
  , t := fun _ => none, a := fun j => j, A := fun _ => none }

/-- d3's `defaultSeparation`: `(a, b) => a.parent === b.parent ? 1 : 2`
(on hierarchy nodes; two nodes share a hierarchy parent exactly when they
share an arena parent). -/
def sep (ar : Arena) (x y : Nat) : Frac :=
  if ar.parent x = ar.parent y then 1 else 2

/-- d3's `nextLeft`: `children ? children[0] : v.t`. -/
def nextLeft (ar : Arena) (ws : WS) (v : Nat) : Option Nat :=
  match ar.children v with
  | [] => ws.t v
  | c :: _ => some c

/-- d3's `nextRight`: `children ? children[children.length - 1] : v.t`. -/
def nextRight (ar : Arena) (ws : WS) (v : Nat) : Option Nat :=
  match (ar.children v).getLast? with
  | none => ws.t v
  | some c => some c

/-- d3's `nextAncestor`: `vim.a.parent === v.parent ? vim.a : ancestor`. -/
def nextAncestor (ar : Arena) (ws : WS) (vim v ancestor : Nat) : Nat :=
  if ar.parent (ws.a vim) = ar.parent v then ws.a vim else ancestor

/-- d3's `moveSubtree(wm, wp, shift)`. -/
def moveSubtree (ar : Arena) (ws : WS) (wm wp : Nat) (shift : Frac) : WS :=
  let change := shift / (Frac.ofNat (ar.sibIdx wp) - Frac.ofNat (ar.sibIdx wm))
  let ws := { ws with c := fupd ws.c wp (ws.c wp - change) }
  let ws := { ws with s := fupd ws.s wp (ws.s wp + shift) }
  let ws := { ws with c := fupd ws.c wm (ws.c wm + change) }
  let ws := { ws with z := fupd ws.z wp (ws.z wp + shift) }
  { ws with m := fupd ws.m wp (ws.m wp + shift) }

/-- d3's `executeShifts(v)`: walks `v`'s children right-to-left
accumulating `shift` and `change` into their `z` and `m`. -/
def executeShifts (ar : Arena) (ws : WS) (v : Nat) : WS :=
  (((ar.children v).reverse).foldl
    (fun (acc : WS × Frac × Frac) w =>
      let (ws, shift, change) := acc
      let ws := { ws with z := fupd ws.z w (ws.z w + shift) }
      let ws := { ws with m := fupd ws.m w (ws.m w + shift) }
      let change := change + ws.c w
      let shift := shift + ws.s w + change
      (ws, shift, change))
    (ws, 0, 0)).1

/-- The body of d3's `apportion` while-loop with its exit processing;
`fuel` bounds the contour walk (it is at most the tree height, so
`ar.n + 1` always suffices).  Mirrors:
`while (vim = nextRight(vim), vip = nextLeft(vip), vim && vip) { ... }`
followed by the two thread-setting `if`s, returning the updated state and
the `ancestor` result. -/
def apportionGo (ar : Arena) (v : Nat) :
    WS → Nat → Nat → Nat → Nat → Nat → Frac → Frac → Frac → Frac → Nat → WS × Nat
  | ws, ancestor, vim0, vip0, vom, vop, sim, sip, som, sop, 0 =>
      -- fuel exhaustion (unreachable for fuel ≥ tree height); return as-is
      let _ := (vim0, vip0, vom, vop, sim, sip, som, sop)
      (ws, ancestor)
  | ws, ancestor, vim0, vip0, vom, vop, sim, sip, som, sop, fuel + 1 =>
      match nextRight ar ws vim0, nextLeft ar ws vip0 with
      | some vim, some vip =>
          let vom := (nextLeft ar ws vom).getD vom
          let vop := (nextRight ar ws vop).getD vop
          let ws := { ws with a := fupd ws.a vop v }
          let shift := ws.z vim + sim - ws.z vip - sip + sep ar vim vip
          let (ws, sip, sop) :=
            if shift > 0 then
              (moveSubtree ar ws (nextAncestor ar ws vim v ancestor) v shift,
                sip + shift, sop + shift)
            else (ws, sip, sop)
          let sim := sim + ws.m vim
          let sip := sip + ws.m vip
          let som := som + ws.m vom
          let sop := sop + ws.m vop
          apportionGo ar v ws ancestor vim vip vom vop sim sip som sop fuel
      | vimO, vipO =>
          -- loop exit: JS `vim`/`vip` hold the just-assigned (null-able) values
          let ws :=
            match vimO with
            | some vim =>
                if (nextRight ar ws vop).isNone then
                  let ws := { ws with t := fupd ws.t vop (some vim) }
                  { ws with m := fupd ws.m vop (ws.m vop + sim - sop) }
                else ws
            | none => ws
          match vipO with
          | some vip =>
              if (nextLeft ar ws vom).isNone then
                let ws := { ws with t := fupd ws.t vom (some vip) }
                let ws := { ws with m := fupd ws.m vom (ws.m vom + sip - som) }
                (ws, v)
              else (ws, ancestor)
          | none => (ws, ancestor)

/-- d3's `apportion(v, w, ancestor)`. -/
def apportion (ar : Arena) (ws : WS) (v : Nat) (w : Option Nat) (ancestor : Nat) :
    WS × Nat :=
  match w with
  | none => (ws, ancestor)
  | some wi =>
      let siblings := ar.children (ar.parent v)
      let vom := siblings.headD 0
      apportionGo ar v ws ancestor wi v vom v
        (ws.m wi) (ws.m v) (ws.m vom) (ws.m v) (ar.n + 1)

/-- d3's `firstWalk(v)` (run in `eachAfter` order). -/
def firstWalk (ar : Arena) (ws : WS) (v : Nat) : WS :=
  let children := ar.children v
  let siblings := ar.children (ar.parent v)
  let w : Option Nat := if ar.sibIdx v ≠ 0 then siblings[ar.sibIdx v - 1]? else none
  let ws :=
    match children with
    | ch0 :: chRest =>
        let ws := executeShifts ar ws v
        let lastCh := (ch0 :: chRest).getLastD ch0
        let midpoint := (ws.z ch0 + ws.z lastCh) / 2
        (match w with
         | some wi =>
             let zv := ws.z wi + sep ar v wi
             let ws := { ws with z := fupd ws.z v zv }
             { ws with m := fupd ws.m v (zv - midpoint) }
         | none => { ws with z := fupd ws.z v midpoint })
    | [] =>
        (match w with
         | some wi => { ws with z := fupd ws.z v (ws.z wi + sep ar v wi) }
         | none => ws)
  -- v.parent.A = apportion(v, w, v.parent.A || siblings[0])
  let anc0 := (ws.A (ar.parent v)).getD (siblings.headD 0)
  let (ws, anc) := apportion ar ws v w anc0
  { ws with A := fupd ws.A (ar.parent v) (some anc) }

/-- One step of d3's `secondWalk` (run in `eachBefore` order), carrying the
assigned raw `x` values: `v._.x = v.z + v.parent.m; v.m += v.parent.m`. -/
def secondWalkStep (ar : Arena) (acc : WS × (Nat → Frac)) (v : Nat) : WS × (Nat → Frac) :=
  let (ws, x) := acc
  let x := fupd x v (ws.z v + ws.m (ar.parent v))
  let ws := { ws with m := fupd ws.m v (ws.m v + ws.m (ar.parent v)) }
  (ws, x)

/-- The component's drawing constants: `const width = 800; const height = 600;`
and the layout size `[width - 100, height - 100]`. -/
def svgWidth : Frac := 800

/-- The constant `const height = 600`. -/
def svgHeight : Frac := 600

/-- First component of the layout size `[width - 100, height - 100]`. -/
def layoutDx : Frac := svgWidth - 100

/-- Second component of the layout size `[width - 100, height - 100]`. -/
def layoutDy : Frac := svgHeight - 100

/-- The full `treeLayout(root)` pass of `tree.js` on a cow tree, returning
the final `x` and `y` coordinate of each node id: `eachAfter(firstWalk)`,
`t.parent.m = -t.z`, `eachBefore(secondWalk)`, then (since `.size()` was
given, not `.nodeSize()`) the left/right/bottom scan and the
`(x + tx) * kx` / `depth * ky` normalisation. -/
def d3treeXY (c : Cow) : (Nat → Frac) × (Nat → Frac) :=
  let ar := arenaOf c
  let ws1 := (postIds c 0).foldl (firstWalk ar) ws0
  let ws2 := { ws1 with m := fupd ws1.m ar.n (-(ws1.z 0)) }
  let pres := preIds c 0
  let x1 := (pres.foldl (secondWalkStep ar) (ws2, fun _ => 0)).2
  let left := pres.foldl (fun acc v => if x1 v < x1 acc then v else acc) 0
  let right := pres.foldl (fun acc v => if x1 v > x1 acc then v else acc) 0
  let bottom := pres.foldl (fun acc v => if ar.depth v > ar.depth acc then v else acc) 0
  let s := if left = right then (1 : Frac) else sep ar left right / 2
  let tx := s - x1 left
  let kx := layoutDx / (x1 right + s + tx)
  let ky := layoutDy / (if ar.depth bottom = 0 then 1 else Frac.ofNat (ar.depth bottom))
  (fun v => (x1 v + tx) * kx, fun v => Frac.ofNat (ar.depth v) * ky)

/-! ## Hierarchy nodes, `descendants()`, `links()`, and the positioned tree -/

/-- A `d3.hierarchy` node after layout: source datum, `depth`, the computed
`x`/`y`, and child nodes. -/
inductive HNode : Type where
  | mk (data : Cow) (depth : Nat) (x y : Frac) (children : List HNode) : HNode

/-- The `data` of a hierarchy node. -/
def HNode.data : HNode → Cow
  | .mk d _ _ _ _ => d

/-- The `x` of a hierarchy node. -/
def HNode.x : HNode → Frac
  | .mk _ _ x _ _ => x

/-- The `y` of a hierarchy node. -/
def HNode.y : HNode → Frac
  | .mk _ _ _ y _ => y

mutual

/-- The list `root.descendants()`: the hierarchy nodes in preorder (topmost first). -/
def hdesc : HNode → List HNode
  | .mk d dep x y ch => .mk d dep x y ch :: hdescKids ch

/-- Version of `hdesc` concatenated over a list of subtrees. -/
def hdescKids : List HNode → List HNode
  | [] => []
  | h :: hs => hdesc h ++ hdescKids hs

end

mutual

/-- The list `root.links()`: one `(source, target)` pair per parent–child edge, in
the order d3 produces them (preorder over the non-root descendants, each
paired with its parent). -/
def hlinks : HNode → List (HNode × HNode)
  | .mk d dep x y ch => hlinksKids (.mk d dep x y ch) ch

/-- Links from parent `p` to each subtree in the list, plus the links
inside each subtree. -/
def hlinksKids : HNode → List HNode → List (HNode × HNode)
  | _, [] => []
  | p, c :: cs => (p, c) :: (hlinks c ++ hlinksKids p cs)

end

mutual

/-- Rebuild the positioned hierarchy tree from the source cow tree and the
computed per-id coordinates (ids in preorder starting at `self`,
depth `dep`). -/
def rebuild (xs ys : Nat → Frac) : Cow → Nat → Nat → HNode
  | .mk n a g no none, self, dep =>
      .mk (.mk n a g no none) dep (xs self) (ys self) []
  | .mk n a g no (some l), self, dep =>
      .mk (.mk n a g no (some l)) dep (xs self) (ys self)
        (rebuildKids xs ys l (self + 1) (dep + 1))

/-- Version of `rebuild` over a list of sibling subtrees starting at id `start`. -/
def rebuildKids (xs ys : Nat → Frac) : List Cow → Nat → Nat → List HNode
  | [], _, _ => []
  | k :: rest, start, dep =>
      rebuild xs ys k start dep :: rebuildKids xs ys rest (start + countNodes k) dep

end

/-- The pipeline `const root = d3.hierarchy(data); treeLayout(root)` — the positioned
hierarchy tree. -/
def d3treeLayout (c : Cow) : HNode :=
  rebuild (d3treeXY c).1 (d3treeXY c).2 c 0 0

/-! ## The rendered SVG content and `createTree` -/

/-- A 2-D point (a node's `translate(x, y)` transform). -/
structure Pt where
  x : Frac
  y : Frac
deriving DecidableEq, Repr

/-- A rendered `line.link` element: `x1`/`y1` from the link's source node,
`x2`/`y2` from its target node. -/
structure LineE where
  x1 : Frac
  y1 : Frac
  x2 : Frac
  y2 : Frac
deriving DecidableEq, Repr

/-- A rendered `g.node` element: the bound hierarchy datum's `data`,
the datum's layout position `d` (its `d.x`/`d.y`), the element's current
`transform`, and the gesture fields `d['dragging']` / `d['dragStart']`
that the drag handlers store on the datum (absent before the first
gesture, hence `Option`). -/
structure NodeE where
  data : Cow
  d : Pt
  transform : Pt
  dragging : Bool
  dragStart : Option Int

/-- The contents of the component's drawing container (the `treeContainer`
element): the link lines and the node groups. -/
structure Container where
  lines : List LineE
  nodes : List NodeE

/-- The component's observable state: the drawing container, the list of
dialog payloads passed to `this.dialog.open(CowDialogComponent, {data})`
(in opening order), and an instrumentation counter of how many times the
layout pass (`treeLayout(root)` inside `createTree`) has run. -/
structure CState where
  container : Container
  dialogs : List Cow
  layoutRuns : Nat

/-- The freshly drawn container for a datum: `createTree` first clears the
container (`d3.select(element).selectAll('*').remove()`), then draws one
line per `root.links()` entry (endpoints at source/target positions) and
one `g.node` per `root.descendants()` entry with
`transform = translate(d.x, d.y)`. -/
def buildContainer (data : Cow) : Container :=
  let root := d3treeLayout data
  { lines := (hlinks root).map (fun pr =>
      { x1 := pr.1.x, y1 := pr.1.y, x2 := pr.2.x, y2 := pr.2.y })
  , nodes := (hdesc root).map (fun h =>
      { data := h.data, d := ⟨h.x, h.y⟩, transform := ⟨h.x, h.y⟩
      , dragging := false, dragStart := none }) }

/-- Outcome of the load part of `createTree` on a possibly-`null` datum.
`jsTypeError` models the `TypeError` the default `d3.hierarchy` children
accessor (`d => d.children`) throws when reading `.children` of `null`;
`emptyTreeError` is modelled from the spec (§7: a dedicated
`EmptyTreeError` for a missing root) and is constructed by no code path
of the embedding. -/
inductive LoadResult : Type where
  | ok (root : HNode)
  | jsTypeError
  | emptyTreeError

/-- Behaviour of `createTree` on a possibly-`null` datum: the container is cleared
first (`selectAll('*').remove()`), then `d3.hierarchy(data)` either throws
(on `null`, leaving the cleared container undrawn) or the layout runs and
the links and nodes are drawn. -/
def createTreeOpt (cs : CState) (data : Option Cow) : CState × LoadResult :=
  let cleared : CState := { cs with container := { lines := [], nodes := [] } }
  match data with
  | none => (cleared, .jsTypeError)
  | some c =>
      ({ cleared with container := buildContainer c, layoutRuns := cs.layoutRuns + 1 },
        .ok (d3treeLayout c))

/-- The method `private createTree(data: Cow)` as the component calls it (the datum is
non-`null`). -/
def createTree (cs : CState) (data : Cow) : CState :=
  (createTreeOpt cs (some data)).1

/-- The component state before `ngOnInit`: empty container, no dialogs
opened, no layout passes run. -/
def cState0 : CState :=
  { container := { lines := [], nodes := [] }, dialogs := [], layoutRuns := 0 }

/-! ## The drag/click gesture handlers

`createTree` installs a `d3.drag()` behaviour on every node group with
three handlers.  A complete gesture over node `i` is: the `start` handler
at pointer-down (records `d['dragging'] = true; d['dragStart'] = Date.now()`;
the `.raise()` call only changes paint order and is not modelled), zero or
more `drag` handler calls (each sets the group's `transform` to the event
position), and the `end` handler at pointer-up (classifies by elapsed time
and opens the dialog on a click). -/

/-- Replace the element at position `i` of a node list by `f` of it
(positions past the end: unchanged). -/
def modList : List NodeE → Nat → (NodeE → NodeE) → List NodeE
  | [], _, _ => []
  | x :: xs, 0, f => f x :: xs
  | x :: xs, n + 1, f => x :: modList xs n f

/-- Apply `f` to node `i` of the component's container. -/
def updNode (cs : CState) (i : Nat) (f : NodeE → NodeE) : CState :=
  { cs with container := { cs.container with nodes := modList cs.container.nodes i f } }

/-- The `start` handler: `d['dragging'] = true; d['dragStart'] = Date.now();`
(`now` is the `Date.now()` timestamp at pointer-down). -/
def onStart (cs : CState) (i : Nat) (now : Int) : CState :=
  updNode cs i (fun nd => { nd with dragging := true, dragStart := some now })

/-- The `drag` handler:
`d3.select(this).attr('transform', translate(event.x, event.y))`. -/
def onDrag (cs : CState) (i : Nat) (p : Pt) : CState :=
  updNode cs i (fun nd => { nd with transform := p })

/-- The classification computed by the `end` handler:
`const wasClick = Date.now() - d['dragStart'] < 200;`.  A `none`
`dragStart` (never the case after a `start` handler ran) models the JS
`Date.now() - undefined` being `NaN`, for which `NaN < 200` is `false`. -/
def wasClickFn (dragStart : Option Int) (now : Int) : Bool :=
  match dragStart with
  | some t => decide (now - t < 200)
  | none => false

/-- The `end` handler: computes `wasClick`, sets `d['dragging'] = false`,
and — only if `wasClick` — opens the dialog with `data: d.data`.  It never
touches the element's `transform`, commits no position anywhere else, and
does not call `createTree`. -/
def onEnd (cs : CState) (i : Nat) (now : Int) : CState :=
  match cs.container.nodes[i]? with
  | none => cs
  | some nd =>
      let wasClick := wasClickFn nd.dragStart now
      let cs' := updNode cs i (fun m => { m with dragging := false })
      if wasClick then { cs' with dialogs := cs'.dialogs ++ [nd.data] } else cs'

/-- The `drag` handler applied to a sequence of pointer-move positions. -/
def applyMoves (cs : CState) (i : Nat) (moves : List Pt) : CState :=
  moves.foldl (fun acc p => onDrag acc i p) cs

/-- A complete pointer-down → move* → pointer-up gesture over node `i`:
`start` at time `s`, the `drag` handler once per move position, `end` at
time `e`. -/
def runGesture (cs : CState) (i : Nat) (s : Int) (moves : List Pt) (e : Int) : CState :=
  onEnd (applyMoves (onStart cs i s) i moves) i e

/-- Last element of a move list, or the default (the transform before the
gesture) when no move occurred. -/
def lastD (moves : List Pt) (dflt : Pt) : Pt :=
  match moves with
  | [] => dflt
  | p :: rest => lastD rest p

/-- Node `i` of the component's container, if any. -/
def nodeAt (cs : CState) (i : Nat) : Option NodeE :=
  cs.container.nodes[i]?

/-! ## The `CowDialogComponent` (the external detail view) -/

/-- A JS value as read off a `Cow` object by property access. -/
inductive JsValue : Type where
  | undefined
  | str (s : String)
  | num (n : Nat)
  | cowList (l : List Cow)

/-- JS property access on a `Cow` object: its declared properties when
present, `undefined` otherwise (in particular for any property the `Cow`
interface does not have, such as `breed`). -/
def Cow.getField (c : Cow) : String → JsValue
  | "name" => .str c.name
  | "age" => match c.age with
      | some a => .num a
      | none => .undefined
  | "gender" => match c.gender with
      | some .male => .str "male"
      | some .female => .str "female"
      | none => .undefined
  | "notes" => match c.notes with
      | some s => .str s
      | none => .undefined
  | "children" => match c.children with
      | some l => .cowList l
      | none => .undefined
  | _ => .undefined

/-- What the `CowDialogComponent` template displays for its injected
`data`: the `<h2>` title and the three `<p>` lines. -/
structure CowDialogView where
  title : JsValue
  ageLine : JsValue
  breedLine : JsValue
  notesLine : JsValue

/-- The `CowDialogComponent` template applied to the injected payload:
`{{ data.name }}` as title, then `Age: {{ data.age }}`,
`Breed: {{ data.breed }}`, `Notes: {{ data.notes }}`. -/
def cowDialogRender (data : Cow) : CowDialogView :=
  { title := data.getField "name"
  , ageLine := data.getField "age"
  , breedLine := data.getField "breed"
  , notesLine := data.getField "notes" }

/-! ## Loading an object graph that may contain cycles

A `Cow` value in TypeScript is an object reference, so a "tree" handed to
`createTree` can contain a cycle (an object among its own descendants).
The inductive `Cow` type cannot represent that, so cyclic inputs are
embedded as a heap of records with child pointers.  `d3.hierarchy` walks
the structure object by object, allocating a fresh hierarchy node per
visit; on a cyclic heap that walk never finishes.  We index the walk by a
recursion budget: `none` means the budget was exhausted with the walk
still running. -/

/-- One heap record of a (possibly cyclic) cow object graph: the `Cow`
fields with `children` as a list of heap indices. -/
structure CowObj where
  name : String
  age : Option Nat
  gender : Option Gender
  notes : Option String
  childIds : Option (List Nat)

/-- A heap of cow objects; a `Cow` structure value is index `0`. -/
abbrev CowHeap := List CowObj

mutual

/-- Unfold the object graph at index `i` into a `Cow` tree, spending one
unit of budget per visited object, as `d3.hierarchy`'s node-allocating
walk does; `none` = budget exhausted before the walk finished. -/
def unfoldHeap (h : CowHeap) : Nat → Nat → Option Cow
  | 0, _ => none
  | fuel + 1, i =>
      match h[i]? with
      | none => none
      | some o =>
          match o.childIds with
          | none => some (.mk o.name o.age o.gender o.notes none)
          | some ids =>
              match unfoldMany h fuel ids with
              | none => none
              | some ks => some (.mk o.name o.age o.gender o.notes (some ks))

/-- Version of `unfoldHeap` over a list of child indices (same budget for each,
sufficient for the nontermination argument: a cyclic heap fails for every
budget). -/
def unfoldMany (h : CowHeap) : Nat → List Nat → Option (List Cow)
  | _, [] => some []
  | fuel, i :: is =>
      match unfoldHeap h fuel i, unfoldMany h fuel is with
      | some c, some cs => some (c :: cs)
      | _, _ => none

end

/-- Outcome of loading a heap-represented structure with a given budget.
`stillRunning` = the hierarchy walk had not finished when the budget ran
out (the observable behaviour of an infinite recursion, for every budget);
`malformedTreeError` is modelled from the spec (§4.1/§7: a dedicated
validation error reporting the offending node path) and is constructed by
no code path of the embedding — `createTree` performs no validation. -/
inductive LoadOutcome : Type where
  | completed (c : Cow)
  | stillRunning
  | malformedTreeError (path : List String)

/-- Whether a load outcome is the spec's `MalformedTreeError`. -/
def LoadOutcome.isMalformedError : LoadOutcome → Bool
  | .malformedTreeError _ => true
  | _ => false

/-- Load the structure rooted at heap index `root` with the given budget. -/
def loadHeap (h : CowHeap) (root fuel : Nat) : LoadOutcome :=
  match unfoldHeap h fuel root with
  | some c => .completed c
  | none => .stillRunning

/-- The spec's cyclic example `{name:"A", children:[{name:"A", children:[...]}]}`
in which the deepest node is the root object itself: object `0` is named
`"A"` with child `1`; object `1` is named `"A"` with child `0` (the root). -/
def cycHeap : CowHeap :=
  [ ⟨"A", none, none, none, some [1]⟩
  , ⟨"A", none, none, none, some [0]⟩ ]

/-! ## The module-level `localStorage` side effect -/

/-- Process-wide string storage (`localStorage`): an association list of
key/value pairs, most recent first. -/
abbrev Storage := List (String × String)

/-- Model of `localStorage.setItem(key, value)`. -/
def setItem (st : Storage) (k v : String) : Storage := (k, v) :: st

/-- Model of `localStorage.getItem(key)` (the most recently set value wins). -/
def getItem (st : Storage) (k : String) : Option String :=
  ((st.find? (fun p => p.1 == k)).map (·.2))

/-- JSON string quoting (the data serialised here contains no characters
needing escapes). -/
def jsonStr (s : String) : String := "\"" ++ s ++ "\""

/-- Comma-separated concatenation. -/
def commaSep : List String → String
  | [] => ""
  | [x] => x
  | x :: xs => x ++ "," ++ commaSep xs

/-- The scalar properties of a cow as JSON members (defined ones only, in
declaration order). -/
def stringifyFlatFields (n : String) (a : Option Nat) (g : Option Gender)
    (no : Option String) : List String :=
  [jsonStr "name" ++ ":" ++ jsonStr n]
    ++ (match a with
        | some x => [jsonStr "age" ++ ":" ++ toString x]
        | none => [])
    ++ (match g with
        | some .male => [jsonStr "gender" ++ ":" ++ jsonStr "male"]
        | some .female => [jsonStr "gender" ++ ":" ++ jsonStr "female"]
        | none => [])
    ++ (match no with
        | some s => [jsonStr "notes" ++ ":" ++ jsonStr s]
        | none => [])

mutual

/-- Model of `JSON.stringify` of a `Cow` object: the defined properties in
declaration order (`undefined` properties are omitted, exactly as
`JSON.stringify` omits them). -/
def stringifyCow : Cow → String
  | .mk n a g no none =>
      "\x7b" ++ commaSep (stringifyFlatFields n a g no) ++ "\x7d"
  | .mk n a g no (some l) =>
      "\x7b" ++ commaSep (stringifyFlatFields n a g no
        ++ [jsonStr "children" ++ ":" ++ ("[" ++ commaSep (stringifyEach l) ++ "]")]) ++ "\x7d"

/-- Pointwise `stringifyCow` of each element of a list. -/
def stringifyEach : List Cow → List String
  | [] => []
  | c :: cs => stringifyCow c :: stringifyEach cs

end

/-- Model of `JSON.stringify` of a `Cow[]` array. -/
def stringifyCowArr (l : List Cow) : String :=
  "[" ++ commaSep (stringifyEach l) ++ "]"

/-- The module-level statement
`localStorage.setItem('cows', JSON.stringify(cows));`, which runs when the
module is loaded — before any `CattleTree` component instance exists. -/
def moduleInit (st : Storage) : Storage :=
  setItem st "cows" (stringifyCowArr cows)

/-- The module-level read-back
`console.log(JSON.parse(localStorage.getItem('cows')))`: the string the
log statement reads from storage. -/
def moduleReadBack (st : Storage) : Option String :=
  getItem (moduleInit st) "cows"

/-- The method `ngOnInit(): void` calling `this.createTree(this.data)` — the component
renders its hard-coded `data` constant.  The ambient storage is taken as a
parameter (and not consulted) to record that the rendered tree does not
depend on it. -/
def ngOnInitRender (_storage : Storage) : CState :=
  createTree cState0 cattleTreeData

/-- A single-node cow tree (root only, no `children` property), used for
concrete single-node gestures and layouts. -/
def cowSingle : Cow := .mk "Solo" none none none none

/-- The one node `createTree` renders for `cowSingle`: layout position
`(350, 0)` (the single-node output of the `d3.tree` sizing pass for size
`[700, 500]`). -/
def nodeSingle : NodeE :=
  { data := cowSingle, d := ⟨350, 0⟩, transform := ⟨350, 0⟩
  , dragging := false, dragStart := none }

/-- Modelled from the spec: "a tree of a single node (root only) is placed
at the drawing center" (§4.2).  The drawing area is the SVG of
`width × height = 800 × 600`; in the layout coordinates (inside the
`translate(50,50)` group of size `[width-100, height-100] = [700, 500]`)
its center is `(350, 250)` — the same point as the SVG-absolute center
`(400, 300)`. -/
def specDrawingCenter : Pt := ⟨350, 250⟩

/-! # Helper lemmas -/

mutual

/-- One link per non-root descendant: `links().length + 1 = descendants().length`. -/
theorem hlinks_len : (h : HNode) → (hlinks h).length + 1 = (hdesc h).length
  | .mk d dep x y ch => by
      have hk := hlinksKids_len (.mk d dep x y ch) ch
      simp only [hlinks, hdesc, List.length_cons]
      omega

/-- List version of `hlinks_len`. -/
theorem hlinksKids_len :
    (p : HNode) → (l : List HNode) → (hlinksKids p l).length = (hdescKids l).length
  | _, [] => by simp [hlinksKids, hdescKids]
  | p, c :: cs => by
      have h1 := hlinks_len c
      have h2 := hlinksKids_len p cs
      simp only [hlinksKids, hdescKids, List.length_cons, List.length_append]
      omega

end

mutual

/-- The positioned tree `rebuild` produces has exactly `countNodes c`
descendants. -/
theorem hdesc_rebuild_len (xs ys : Nat → Frac) :
    (c : Cow) → (self dep : Nat) →
      (hdesc (rebuild xs ys c self dep)).length = countNodes c
  | .mk n a g no none, self, dep => by
      simp [rebuild, hdesc, hdescKids, countNodes]
  | .mk n a g no (some l), self, dep => by
      have hk := hdescKids_rebuildKids_len xs ys l (self + 1) (dep + 1)
      simp only [rebuild, hdesc, countNodes, List.length_cons]
      omega

/-- List version of `hdesc_rebuild_len`. -/
theorem hdescKids_rebuildKids_len (xs ys : Nat → Frac) :
    (l : List Cow) → (start dep : Nat) →
      (hdescKids (rebuildKids xs ys l start dep)).length = countNodesL l
  | [], _, _ => by simp [rebuildKids, hdescKids, countNodesL]
  | k :: rest, start, dep => by
      have h1 := hdesc_rebuild_len xs ys k start dep
      have h2 := hdescKids_rebuildKids_len xs ys rest (start + countNodes k) dep
      simp only [rebuildKids, hdescKids, countNodesL, List.length_append]
      omega

end

/-- Each `createTree` call renders one node group per tree node. -/
theorem createTree_nodes_len (cs : CState) (data : Cow) :
    (createTree cs data).container.nodes.length = countNodes data := by
  simp [createTree, createTreeOpt, buildContainer, d3treeLayout, hdesc_rebuild_len]

/-- Each `createTree` call renders one line per link, one fewer than the nodes. -/
theorem createTree_lines_len (cs : CState) (data : Cow) :
    (createTree cs data).container.lines.length + 1
      = (createTree cs data).container.nodes.length := by
  simp only [createTree, createTreeOpt, buildContainer, List.length_map]
  exact hlinks_len _

/-- The update `modList` preserves the list length. -/
theorem modList_length (l : List NodeE) (i : Nat) (f : NodeE → NodeE) :
    (modList l i f).length = l.length := by
  induction l generalizing i with
  | nil => simp [modList]
  | cons x xs ih =>
      cases i with
      | zero => simp [modList]
      | succ n => simp [modList, ih]

/-- The update `modList` applies `f` at the modified position. -/
theorem modList_get_self (l : List NodeE) (i : Nat) (f : NodeE → NodeE) :
    (modList l i f)[i]? = (l[i]?).map f := by
  induction l generalizing i with
  | nil => simp [modList]
  | cons x xs ih =>
      cases i with
      | zero => simp [modList]
      | succ n => simpa [modList] using ih n

/-- The update `updNode` applies `f` to node `i` and changes nothing else of the
state. -/
theorem updNode_nodeAt (cs : CState) (i : Nat) (f : NodeE → NodeE) :
    nodeAt (updNode cs i f) i = (nodeAt cs i).map f :=
  modList_get_self cs.container.nodes i f

/-- The fold `applyMoves` keeps dialogs, layout-run count and lines, and sets node
`i`'s transform to the last move position. -/
theorem applyMoves_spec (moves : List Pt) (cs : CState) (i : Nat) (nd : NodeE)
    (h : nodeAt cs i = some nd) :
    (applyMoves cs i moves).dialogs = cs.dialogs ∧
    (applyMoves cs i moves).layoutRuns = cs.layoutRuns ∧
    (applyMoves cs i moves).container.lines = cs.container.lines ∧
    nodeAt (applyMoves cs i moves) i
      = some { nd with transform := lastD moves nd.transform } := by
  induction moves generalizing cs nd with
  | nil => exact ⟨rfl, rfl, rfl, h⟩
  | cons p rest ih =>
      have hstep : nodeAt (onDrag cs i p) i = some { nd with transform := p } := by
        rw [onDrag, updNode_nodeAt, h]
        rfl
      have := ih (onDrag cs i p) { nd with transform := p } hstep
      simpa [applyMoves, onDrag, updNode, lastD] using this

/-- The `end` handler: appends the dialog payload exactly when `wasClick`,
clears the dragging flag, and touches nothing else. -/
theorem onEnd_spec (cs : CState) (i : Nat) (e : Int) (nd : NodeE)
    (h : nodeAt cs i = some nd) :
    (onEnd cs i e).dialogs
      = cs.dialogs ++ (if wasClickFn nd.dragStart e then [nd.data] else []) ∧
    nodeAt (onEnd cs i e) i = some { nd with dragging := false } ∧
    (onEnd cs i e).layoutRuns = cs.layoutRuns ∧
    (onEnd cs i e).container.lines = cs.container.lines := by
  have hx : cs.container.nodes[i]? = some nd := h
  cases hwc : wasClickFn nd.dragStart e <;>
    refine ⟨?_, ?_, ?_, ?_⟩ <;>
      simp [onEnd, hx, hwc, nodeAt, updNode, modList_get_self, h]

/-- Observable effect of one complete gesture over node `i`: the dialog
payload is appended exactly when the elapsed time is under 200ms
(independently of the moves); the node keeps its last dragged transform
(its layout datum `d` untouched) with the dragging flag cleared and the
start timestamp recorded; the layout-pass count and the drawn lines are
untouched. -/
theorem runGesture_spec (cs : CState) (i : Nat) (s e : Int) (moves : List Pt)
    (nd : NodeE) (h : nodeAt cs i = some nd) :
    (runGesture cs i s moves e).dialogs
      = cs.dialogs ++ (if e - s < 200 then [nd.data] else []) ∧
    nodeAt (runGesture cs i s moves e) i
      = some { nd with dragging := false
                     , dragStart := some s
                     , transform := lastD moves nd.transform } ∧
    (runGesture cs i s moves e).layoutRuns = cs.layoutRuns ∧
    (runGesture cs i s moves e).container.lines = cs.container.lines := by
  have hstart : nodeAt (onStart cs i s) i
      = some { nd with dragging := true, dragStart := some s } := by
    rw [onStart, updNode_nodeAt, h]
    rfl
  obtain ⟨md, mr, ml, mn⟩ :=
    applyMoves_spec moves (onStart cs i s) i _ hstart
  obtain ⟨ed, en, er, el⟩ :=
    onEnd_spec (applyMoves (onStart cs i s) i moves) i e _ mn
  have hwc : wasClickFn (some s) e = (decide (e - s < 200)) := rfl
  refine ⟨?_, ?_, ?_, ?_⟩
  · rw [runGesture] at *
    rw [ed, md]
    show cs.dialogs ++ _ = cs.dialogs ++ _
    by_cases hlt : e - s < 200 <;> simp [hwc, hlt, onStart, updNode]
  · rw [runGesture, en]
  · rw [runGesture, er, mr]
    rfl
  · rw [runGesture, el, ml]
    rfl

/-- On the cyclic heap (`cycHeap`) the hierarchy walk fails to finish for
every budget, from either entry point: the observable behaviour of an
infinite recursion. -/
theorem unfoldHeap_cyc (fuel : Nat) :
    unfoldHeap cycHeap fuel 0 = none ∧ unfoldHeap cycHeap fuel 1 = none := by
  have e0 : cycHeap[0]? = some ⟨"A", none, none, none, some [1]⟩ := rfl
  have e1 : cycHeap[1]? = some ⟨"A", none, none, none, some [0]⟩ := rfl
  induction fuel with
  | zero => exact ⟨by simp [unfoldHeap], by simp [unfoldHeap]⟩
  | succ f ih =>
      obtain ⟨h0, h1⟩ := ih
      constructor
      · simp only [unfoldHeap, unfoldMany, e0, h1]
      · simp only [unfoldHeap, unfoldMany, e1, h0]

/-! # Claim theorems -/

/-- Claim C1: a completed pointer-down→pointer-up gesture over a node is
classified as a click — the Selection dialog opens with the node's data —
exactly when the elapsed time (pointer-up timestamp minus the recorded
pointer-down timestamp) is strictly below 200ms, regardless of the pointer
moves that occurred during the gesture (the move list does not appear on
the right-hand side). -/
theorem claimC1_click_iff_elapsed_time (cs : CState) (i : Nat) (s e : Int)
    (moves : List Pt) (nd : NodeE) (h : nodeAt cs i = some nd) :
    (runGesture cs i s moves e).dialogs
        = cs.dialogs ++ (if e - s < 200 then [nd.data] else []) ∧
    ((runGesture cs i s moves e).dialogs ≠ cs.dialogs ↔ e - s < 200) := by
  obtain ⟨hd, _, _, _⟩ := runGesture_spec cs i s e moves nd h
  refine ⟨hd, ?_, ?_⟩
  · intro hne
    by_contra hlt
    rw [hd] at hne
    simp [hlt] at hne
  · intro hlt
    rw [hd]
    simp only [if_pos hlt]
    intro heq
    have := congrArg List.length heq
    simp at this

/-- Witness for C1 at the spec's "100ms with 50px of movement" example: a
gesture over the rendered single-node tree starting at `t = 0`, moving to
`(400, 50)`, released at `t = 100`, opens the dialog. -/
theorem claimC1_witness :
    nodeAt (createTree cState0 cowSingle) 0 = some nodeSingle ∧
    (runGesture (createTree cState0 cowSingle) 0 0 [⟨400, 50⟩] 100).dialogs
      = [] ++ (if (100 : Int) - 0 < 200 then [nodeSingle.data] else []) :=
  ⟨rfl,
    (claimC1_click_iff_elapsed_time (createTree cState0 cowSingle) 0 0 100
      [⟨400, 50⟩] nodeSingle rfl).1⟩

/-- Counterexample to claim C2 as stated: the spec's own "250ms with zero
movement" drag example leaves the layout-pass count unchanged — no
re-layout pass is triggered by a drag-classified gesture (`createTree` is
never re-invoked after a gesture), contradicting "a re-layout pass
respecting that override is triggered". -/
theorem claimC2_counterexample :
    (200 : Int) ≤ 250 - 0 ∧
    ¬ (createTree cState0 cowSingle).layoutRuns
        < (runGesture (createTree cState0 cowSingle) 0 0 [] 250).layoutRuns := by
  refine ⟨by decide, ?_⟩
  obtain ⟨_, _, hr, _⟩ :=
    runGesture_spec (createTree cState0 cowSingle) 0 0 250 [] nodeSingle rfl
  rw [hr]
  exact lt_irrefl _

/-- Claim C2 (amended): for every drag-classified gesture (elapsed time at
or above 200ms) no Selection event is emitted (the dialog list is
unchanged); the node simply remains rendered at its final pointer position
(the last move, or its previous transform for a zero-movement drag) with
its layout datum untouched; no re-layout pass is triggered and no override
is recorded anywhere in the component state. -/
theorem claimC2_amended_drag_effects (cs : CState) (i : Nat) (s e : Int)
    (moves : List Pt) (nd : NodeE) (h : nodeAt cs i = some nd)
    (hdrag : 200 ≤ e - s) :
    (runGesture cs i s moves e).dialogs = cs.dialogs ∧
    nodeAt (runGesture cs i s moves e) i
      = some { nd with dragging := false
                     , dragStart := some s
                     , transform := lastD moves nd.transform } ∧
    (runGesture cs i s moves e).layoutRuns = cs.layoutRuns ∧
    (runGesture cs i s moves e).container.lines = cs.container.lines := by
  obtain ⟨hd, hn, hr, hl⟩ := runGesture_spec cs i s e moves nd h
  refine ⟨?_, hn, hr, hl⟩
  rw [hd]
  have hlt : ¬ (e - s < 200) := by omega
  simp [hlt]

/-- Witness for the amended C2 at the spec's "250ms with zero movement"
example: no dialog opens. -/
theorem claimC2_witness :
    nodeAt (createTree cState0 cowSingle) 0 = some nodeSingle ∧
    (200 : Int) ≤ 250 - 0 ∧
    (runGesture (createTree cState0 cowSingle) 0 0 [] 250).dialogs
      = (createTree cState0 cowSingle).dialogs :=
  ⟨rfl, by decide,
    (claimC2_amended_drag_effects (createTree cState0 cowSingle) 0 0 250 []
      nodeSingle rfl (by decide)).1⟩

/-- Counterexample to claim C3 as stated: a 100ms gesture that moved the
node to `(400, 50)` is click-classified (the dialog opens), yet after
pointer-up the node's rendered transform is still `(400, 50)` — not its
pre-gesture layout position `(350, 0)`: the live position change is not
discarded and the node does not snap back. -/
theorem claimC3_counterexample :
    ((100 : Int) - 0 < 200) ∧
    (runGesture (createTree cState0 cowSingle) 0 0 [⟨400, 50⟩] 100).dialogs.length = 1 ∧
    (runGesture (createTree cState0 cowSingle) 0 0 [⟨400, 50⟩] 100).container.nodes.map
        (fun nd => nd.transform) = [⟨400, 50⟩] ∧
    (createTree cState0 cowSingle).container.nodes.map
        (fun nd => nd.transform) = [⟨350, 0⟩] ∧
    (⟨400, 50⟩ : Pt) ≠ ⟨350, 0⟩ :=
  ⟨by decide, rfl, rfl, rfl, by decide⟩

/-- Claim C3 (amended): for every click-classified gesture a Selection
event carrying the clicked node's full Entity data is emitted; however a
live position change made during the gesture is not discarded — after
pointer-up the node stays rendered at its last dragged position (its
stored layout datum is unchanged, but nothing restores the transform). -/
theorem claimC3_amended_click_effects (cs : CState) (i : Nat) (s e : Int)
    (moves : List Pt) (nd : NodeE) (h : nodeAt cs i = some nd)
    (hclick : e - s < 200) :
    (runGesture cs i s moves e).dialogs = cs.dialogs ++ [nd.data] ∧
    nodeAt (runGesture cs i s moves e) i
      = some { nd with dragging := false
                     , dragStart := some s
                     , transform := lastD moves nd.transform } ∧
    (runGesture cs i s moves e).container.lines = cs.container.lines := by
  obtain ⟨hd, hn, _, hl⟩ := runGesture_spec cs i s e moves nd h
  refine ⟨?_, hn, hl⟩
  rw [hd]
  simp [hclick]

/-- Witness for the amended C3: the 100ms moved gesture emits the
Selection with the node's data. -/
theorem claimC3_witness :
    nodeAt (createTree cState0 cowSingle) 0 = some nodeSingle ∧
    ((100 : Int) - 0 < 200) ∧
    (runGesture (createTree cState0 cowSingle) 0 0 [⟨400, 50⟩] 100).dialogs
      = (createTree cState0 cowSingle).dialogs ++ [nodeSingle.data] :=
  ⟨rfl, by decide,
    (claimC3_amended_click_effects (createTree cState0 cowSingle) 0 0 100
      [⟨400, 50⟩] nodeSingle rfl (by decide)).1⟩

/-- Claim C7: for every tree, the number of rendered edges (one `line.link`
per parent–child link) equals the number of rendered nodes minus one. -/
theorem claimC7_edges_nodes (cs : CState) (data : Cow) :
    (createTree cs data).container.lines.length
      = (createTree cs data).container.nodes.length - 1 := by
  have := createTree_lines_len cs data
  omega

/-- Claim C8: running the layout pass twice on the same tree produces an
identical drawn container — identical coordinates for every node and edge
(the pass is a pure function of the data, independent of the previous
container contents, because `createTree` first clears the container) — and
no duplicate content accumulates (the node count after two passes is still
the tree's node count). -/
theorem claimC8_layout_idempotent (cs cs' : CState) (data : Cow) :
    (createTree (createTree cs data) data).container
        = (createTree cs data).container ∧
    (createTree cs data).container = (createTree cs' data).container ∧
    (createTree (createTree cs data) data).container.nodes.length
        = countNodes data :=
  ⟨rfl, rfl, createTree_nodes_len _ data⟩

/-- Counterexample to claim C9 as stated: the single rendered node of a
single-node tree sits at `(350, 0)` of the layout area — the horizontal
center but the top edge (`y = depth · ky = 0`) — which is not the center
`(350, 250)` of the drawing area. -/
theorem claimC9_counterexample :
    (createTree cState0 cowSingle).container.nodes.map
        (fun nd => nd.transform) = [⟨350, 0⟩] ∧
    (⟨350, 0⟩ : Pt) ≠ specDrawingCenter :=
  ⟨rfl, by decide⟩

/-- Claim C9 (amended): for a tree consisting of a single root node
(shown for two single-node trees with different payloads, from any prior
state), `createTree` renders exactly one node and zero edges, and places
the node at `(350, 0)`: the horizontal center of the `[700, 500]` layout
area but at its top edge (the `size` pass maps the root to `y = 0`), not
at the center of the drawing area. -/
theorem claimC9_single_node (cs cs' : CState) :
    (createTree cs cowSingle).container
      = { lines := [], nodes := [nodeSingle] } ∧
    (createTree cs' (Cow.mk "Z" (some 5) (some .male) (some "note") none)).container
      = { lines := []
        , nodes := [{ data := Cow.mk "Z" (some 5) (some .male) (some "note") none
                    , d := ⟨350, 0⟩
                    , transform := ⟨350, 0⟩
                    , dragging := false
                    , dragStart := none }] } :=
  ⟨rfl, rfl⟩

/-- Counterexample to claim C4 as stated: loading the spec's cyclic
example tree does not yield a `MalformedTreeError` — with a budget of 1000
visited objects the hierarchy walk is still running (and `unfoldHeap_cyc`
shows the same for every budget). -/
theorem claimC4_counterexample :
    loadHeap cycHeap 0 1000 = LoadOutcome.stillRunning ∧
    LoadOutcome.stillRunning.isMalformedError = false := by
  refine ⟨?_, rfl⟩
  rw [loadHeap, (unfoldHeap_cyc 1000).1]

/-- Claim C4 (amended): `createTree` performs no load-time validation and
the repository defines no `MalformedTreeError`.  Loading the cyclic
example (`{name:"A", children:[{name:"A", children:[root]}]}` where the
deepest node is the root object) makes the hierarchy construction recurse
without terminating — for every recursion budget the load is still
running, and no error value of any kind is produced — and a tree whose
node has an empty name renders normally (one node, no error). -/
theorem claimC4_no_validation (fuel : Nat) :
    loadHeap cycHeap 0 fuel = LoadOutcome.stillRunning ∧
    (createTree cState0 (Cow.mk "" none none none none)).container.nodes.length = 1 := by
  refine ⟨?_, rfl⟩
  rw [loadHeap, (unfoldHeap_cyc fuel).1]

/-- Counterexample to claim C5 as stated: loading a `null` root fails with
the generic `TypeError` thrown inside `d3.hierarchy` (reading `.children`
of `null`), not with an `EmptyTreeError` — no code path produces the
spec's `EmptyTreeError`. -/
theorem claimC5_counterexample :
    (createTreeOpt cState0 none).2 = LoadResult.jsTypeError ∧
    LoadResult.jsTypeError ≠ LoadResult.emptyTreeError :=
  ⟨rfl, fun h => nomatch h⟩

/-- Claim C5 (amended): loading a `null`/absent root throws a generic
runtime `TypeError` during hierarchy construction — rendering does not
proceed (the container, already cleared, stays empty, and no dialog
opens) — but the error is not a dedicated `EmptyTreeError`; the code
defines and raises no such error. -/
theorem claimC5_null_root (cs : CState) :
    (createTreeOpt cs none).2 = LoadResult.jsTypeError ∧
    (createTreeOpt cs none).1.container.nodes = [] ∧
    (createTreeOpt cs none).1.container.lines = [] ∧
    (createTreeOpt cs none).1.dialogs = cs.dialogs :=
  ⟨rfl, rfl, rfl, rfl⟩

/-- Claim C6, evaluated at the failing input: the payload handed to the
dialog is the clicked node's full record (here the whole `cowSingle`
record appended to the dialog list by a click), and for the sample record
`{name:'Lilly', age:11, gender:'female'}` the `CowDialogComponent`
template renders title `"Lilly"`, age `11`, `undefined` on its Breed line
(the `Cow` record has no `breed` property), and `undefined` notes — the
payload's `gender`/category value `'female'` is present on the record but
appears nowhere in the rendered view. -/
theorem claimC6_dialog_breed_undefined :
    (runGesture (createTree cState0 cowSingle) 0 0 [] 100).dialogs = [cowSingle] ∧
    cowsLilly.gender = some Gender.female ∧
    Cow.getField cowsLilly "gender" = JsValue.str "female" ∧
    cowDialogRender cowsLilly
      = { title := JsValue.str "Lilly"
        , ageLine := JsValue.num 11
        , breedLine := JsValue.undefined
        , notesLine := JsValue.undefined } :=
  ⟨rfl, rfl, rfl, rfl⟩

/-- Claim C10: loading the component module stores the serialised
one-element sample list under the key `cows` (and the logged read-back
returns exactly that string); the component's `ngOnInit` renders the
separate hard-coded six-node `data` constant — identically for any two
storage contents, and with the hard-coded cows as its node data — so the
rendered output is independent of the stored snapshot. -/
theorem claimC10_module_storage (st st1 st2 : Storage) :
    cows.length = 1 ∧
    getItem (moduleInit st) "cows" = some (stringifyCowArr cows) ∧
    moduleReadBack st
      = some "[\x7b\"name\":\"Lilly\",\"age\":11,\"gender\":\"female\"\x7d]" ∧
    ngOnInitRender st1 = ngOnInitRender st2 ∧
    (ngOnInitRender st).container.nodes.map (fun nd => nd.data)
      = [ cattleTreeData
        , Cow.mk "Bella" none none none none
        , Cow.mk "Daisy" none none none (some
            [ Cow.mk "MooMoo" none none none none
            , Cow.mk "Bessie" none none none none ])
        , Cow.mk "MooMoo" none none none none
        , Cow.mk "Bessie" none none none none
        , Cow.mk "Buttercup" none none none none ] :=
  ⟨rfl, rfl, rfl, rfl, rfl⟩
